import Mathlib

/-!
# MAX30100 pulse-oximeter front end

A shallow embedding of `src/main.cpp`.  The program is straight-line code
over four library facilities (the indicator pin, the C pseudo-random
generator, the I2C bus and the text output stream).  Each library call is
modelled by its documented effect: it appends one `Event` to the trace held
in the machine state, and calls that return data take it from a `World`
oracle (the pseudo-random sequence and the bytes the bus delivers).

The two preprocessor settings the code depends on are parameters of a
`Build`: the value of `SIMULATION_MODE`, and whether plain `char` is signed
(C++ leaves this to the implementation; Mbed OS builds for Arm Cortex-M,
whose ABI makes plain `char` unsigned).
-/

namespace PulseOximeter

/-! ## C integers -/

/-- Bit pattern of an `int` as a 32-bit word (bit 31 is the sign bit). -/
def toBits32 (x : Int) : Nat := (x % 2 ^ 32).toNat

/-- Value of the `int` whose 32-bit pattern is `n % 2 ^ 32`. -/
def ofBits32 (n : Nat) : Int :=
  if n % 2 ^ 32 < 2 ^ 31 then ((n % 2 ^ 32 : Nat) : Int)
  else ((n % 2 ^ 32 : Nat) : Int) - 2 ^ 32

/-- Reduction of a mathematical integer to the 32-bit `int` range. -/
def wrap32 (x : Int) : Int := ofBits32 (toBits32 x)

/-- C `a + b` on `int`. -/
def int_add (a b : Int) : Int := wrap32 (a + b)

/-- C `a % b` on `int` (the remainder takes the sign of the dividend). -/
def int_mod (a b : Int) : Int := Int.tmod a b

/-- C `a << k` on `int`. -/
def int_shl (a : Int) (k : Nat) : Int := ofBits32 (toBits32 a <<< k)

/-- C `a | b` on `int`. -/
def int_or (a b : Int) : Int := ofBits32 (toBits32 a ||| toBits32 b)

/-- Signedness of plain `char`. -/
inductive CharKind where
  | unsignedChar
  | signedChar
  deriving DecidableEq, Repr

/-- Byte kept by a `char` object after an `int` is assigned to it. -/
def storeChar (v : Int) : Nat := (v % 256).toNat

/-- Integral promotion of a `char` object holding the byte `b`. -/
def charToInt (k : CharKind) (b : Nat) : Int :=
  match k with
  | .unsignedChar => ((b % 256 : Nat) : Int)
  | .signedChar =>
    if b % 256 < 128 then ((b % 256 : Nat) : Int) else ((b % 256 : Nat) : Int) - 256

/-! ## Build configuration -/

/-- Compile-time settings: the value given to `SIMULATION_MODE` (line 4) and
the signedness of plain `char` on the target. -/
structure Build where
  SIMULATION_MODE : Nat
  plainChar : CharKind
  deriving DecidableEq, Repr

/-- The build as shipped: `#define SIMULATION_MODE 1`, Arm ABI `char`. -/
def simulationBuild : Build := ⟨1, .unsignedChar⟩

/-- The hardware build: `SIMULATION_MODE` set to 0, Arm ABI `char`. -/
def hardwareBuild : Build := ⟨0, .unsignedChar⟩

/-! ## Machine state, environment and effects -/

/-- An argument passed to `printf`. -/
inductive PrintfArg where
  | int (v : Int)
  | str (s : String)
  deriving DecidableEq, Repr

/-- One externally visible effect of a library call. -/
inductive Event where
  | ledWrite (value : Bool)
  | rand (result : Nat)
  | i2cWrite (address : Int) (data : List Nat) (repeated : Bool)
  | i2cRead (address : Int) (length : Nat)
  | printf (format : String) (args : List PrintfArg)
  | sleepFor (ms : Nat)
  | attachRise
  deriving DecidableEq, Repr

/-- The environment: what `rand()` returns on its k-th call, and byte `i` of
what the k-th bus read leaves in the buffer of the caller. -/
structure World where
  randSeq : Nat → Nat
  busData : Nat → Nat → Nat

/-- Program-visible state: the indicator `led`, how many values have been
taken from the two oracles, and the effects so far (oldest first). -/
structure Machine where
  led : Bool
  randCalls : Nat
  busReads : Nat
  trace : List Event
  deriving DecidableEq, Repr

/-- A pair of channel readings: the locals `ir_val`, `red_val` of `GetData`. -/
structure Sample where
  ir_val : Int
  red_val : Int
  deriving DecidableEq, Repr

/-- Line 14: `const int MAX30100_I2C_ADDR = 0xAE`. -/
def MAX30100_I2C_ADDR : Int := 0xAE

/-! ## Library calls -/

/-- Reading `led` (`DigitalOut::operator int`). -/
def led_read (s : Machine) : Bool := s.led

/-- Assigning to `led` (`DigitalOut::operator=`). -/
def led_write (v : Bool) (s : Machine) : Machine :=
  { s with led := v, trace := s.trace ++ [Event.ledWrite v] }

/-- The C library call `rand()`. -/
def rand (w : World) (s : Machine) : Int × Machine :=
  ((w.randSeq s.randCalls : Nat),
   { s with randCalls := s.randCalls + 1,
            trace := s.trace ++ [Event.rand (w.randSeq s.randCalls)] })

/-- The call `i2c.write(address, data, length, repeated)`; `repeated`
defaults to `false` in the Mbed API. -/
def i2c_write (address : Int) (data : List Nat) (length : Nat) (repeated : Bool)
    (s : Machine) : Machine :=
  { s with trace := s.trace ++ [Event.i2cWrite address (data.take length) repeated] }

/-- The call `i2c.read(address, data, length)`: returns the new contents of
the `char` buffer. -/
def i2c_read (w : World) (address : Int) (length : Nat) (s : Machine) :
    List Nat × Machine :=
  ((List.range length).map (fun i => w.busData s.busReads i % 256),
   { s with busReads := s.busReads + 1,
            trace := s.trace ++ [Event.i2cRead address length] })

/-- The call `printf(format, args...)`. -/
def printf (format : String) (args : List PrintfArg) (s : Machine) : Machine :=
  { s with trace := s.trace ++ [Event.printf format args] }

/-- The call `ThisThread::sleep_for`, in milliseconds. -/
def sleep_for (ms : Nat) (s : Machine) : Machine :=
  { s with trace := s.trace ++ [Event.sleepFor ms] }

/-! ## The program -/

/-- Lines 19-36: `init_sensor`. -/
def init_sensor (s : Machine) : Machine :=
  let data : List Nat := [0, 0]
  let data := data.set 0 (storeChar 0x01)
  let data := data.set 1 (storeChar 0x10)
  let s := i2c_write MAX30100_I2C_ADDR data 2 false s
  let data := data.set 0 (storeChar 0x06)
  let data := data.set 1 (storeChar 0x03)
  let s := i2c_write MAX30100_I2C_ADDR data 2 false s
  let data := data.set 0 (storeChar 0x07)
  let data := data.set 1 (storeChar 0x47)
  i2c_write MAX30100_I2C_ADDR data 2 false s

/-- Lines 57-58: the two channel values combined from the 4-byte buffer. -/
def decodeFrame (k : CharKind) (data : List Nat) : Sample :=
  { ir_val := int_or (int_shl (charToInt k (data.getD 0 0)) 8) (charToInt k (data.getD 1 0)),
    red_val := int_or (int_shl (charToInt k (data.getD 2 0)) 8) (charToInt k (data.getD 3 0)) }

/-- Lines 42-59 of `GetData`: the acquisition selected by `SIMULATION_MODE`. -/
def GetData_acquire (b : Build) (w : World) (s : Machine) : Sample × Machine :=
  if b.SIMULATION_MODE = 1 then
    let (r1, s) := rand w s
    let ir_val := int_add 25000 (int_mod r1 1000)
    let (r2, s) := rand w s
    let red_val := int_add 26000 (int_mod r2 1000)
    ({ ir_val := ir_val, red_val := red_val }, s)
  else
    let reg : Nat := storeChar 0x05
    let s := i2c_write MAX30100_I2C_ADDR [reg] 1 true s
    let (data, s) := i2c_read w (int_or MAX30100_I2C_ADDR 0x01) 4 s
    (decodeFrame b.plainChar data, s)

/-- Lines 61-62 of `GetData`: the report. -/
def GetData_report (ir_val red_val : Int) (s : Machine) : Machine :=
  printf "IR Value: %d, RED Value: %d\r\n" [PrintfArg.int ir_val, PrintfArg.int red_val] s

/-- Lines 41-63: `GetData`. -/
def GetData (b : Build) (w : World) (s : Machine) : Machine :=
  let (smp, s) := GetData_acquire b w s
  GetData_report smp.ir_val smp.red_val s

/-- Lines 67-70: `handle_interrupt`. -/
def handle_interrupt (b : Build) (w : World) (s : Machine) : Machine :=
  let s := led_write (!led_read s) s
  GetData b w s

/-- Lines 75-81 of `main`: the banner and, in the hardware build, the sensor
set-up and the registration of the handler. -/
def main_start (b : Build) (s : Machine) : Machine :=
  let s := printf "Starting MAX30100 Pulse Oximeter (%s mode)...\r\n"
    [PrintfArg.str (if b.SIMULATION_MODE ≠ 0 then "SIMULATION" else "HARDWARE")] s
  if b.SIMULATION_MODE = 0 then
    let s := init_sensor s
    { s with trace := s.trace ++ [Event.attachRise] }
  else s

/-- Lines 85-92: one pass through the body of the `while (true)` loop. -/
def main_loop_body (b : Build) (w : World) (s : Machine) : Machine :=
  if b.SIMULATION_MODE = 1 then
    let s := sleep_for 1000 s
    handle_interrupt b w s
  else
    sleep_for 500 s

/-- The first `n` passes through the main loop. -/
def main_loop (b : Build) (w : World) : Nat → Machine → Machine
  | 0, s => s
  | n + 1, s => main_loop b w n (main_loop_body b w s)

/-- Lines 73-94: `main` up to the end of the `n`-th pass of its endless loop.
In the hardware build the loop only sleeps; there `handle_interrupt` runs
when the sensor raises its interrupt line, once per rising edge. -/
def main (b : Build) (w : World) (n : Nat) (s : Machine) : Machine :=
  main_loop b w n (main_start b s)

/-! ## Views of a trace -/

/-- Decimal text of an `int`, as `%d` prints it. -/
def decimal (v : Int) : List Char := (toString v).data

/-- Text produced by `printf` for the conversions the program uses: `%d`
takes an `int` argument, `%s` a string argument; any other character is
copied. -/
def formatChars : List Char → List PrintfArg → List Char
  | [], _ => []
  | '%' :: 'd' :: rest, PrintfArg.int v :: args => decimal v ++ formatChars rest args
  | '%' :: 's' :: rest, PrintfArg.str t :: args => t.data ++ formatChars rest args
  | c :: rest, args => c :: formatChars rest args

/-- The characters written to the output stream by a trace. -/
def stdoutOf : List Event → List Char
  | [] => []
  | Event.printf f a :: es => formatChars f.data a ++ stdoutOf es
  | _ :: es => stdoutOf es

/-- The bus transactions of a trace. -/
def busOf : List Event → List Event
  | [] => []
  | Event.i2cWrite a d r :: es => Event.i2cWrite a d r :: busOf es
  | Event.i2cRead a n :: es => Event.i2cRead a n :: busOf es
  | _ :: es => busOf es

/-- The samples reported by a trace: the argument pairs of the two-integer
`printf` calls. -/
def samplesOf : List Event → List Sample
  | [] => []
  | Event.printf _ [PrintfArg.int i, PrintfArg.int r] :: es => ⟨i, r⟩ :: samplesOf es
  | _ :: es => samplesOf es

/-- The text line of a sample: label, infrared value, label, red value and
the carriage-return/line-feed terminator. -/
def sampleLine (smp : Sample) : List Char :=
  "IR Value: ".data ++ decimal smp.ir_val ++ ", RED Value: ".data ++ decimal smp.red_val
    ++ ['\r', '\n']

/-- The text of a list of samples, one line each. -/
def linesOf : List Sample → List Char
  | [] => []
  | smp :: rest => sampleLine smp ++ linesOf rest

/-- Register file of the peripheral under the register bus protocol: a write
whose payload is a register address followed by a value stores the value in
that register; a write of a register address alone only positions the
register pointer, and a read stores nothing. -/
def regsAfter (regs : Nat → Nat) : List Event → Nat → Nat
  | [] => regs
  | Event.i2cWrite _ (r :: v :: _) _ :: es => regsAfter (Function.update regs r v) es
  | _ :: es => regsAfter regs es

/-- The sample the synthetic acquisition produces from the draws `r1`, `r2`. -/
def syntheticSample (r1 r2 : Nat) : Sample :=
  { ir_val := ((25000 + r1 % 1000 : Nat) : Int), red_val := ((26000 + r2 % 1000 : Nat) : Int) }

/-- The samples of `n` consecutive synthetic acquisitions that start at
position `k` of the pseudo-random sequence. -/
def syntheticRun (w : World) (k : Nat) : Nat → List Sample
  | 0 => []
  | n + 1 => syntheticSample (w.randSeq k) (w.randSeq (k + 1)) :: syntheticRun w (k + 2) n

/-! ## Concrete inputs -/

/-- A world whose pseudo-random sequence is 12345, 13344, ... and whose bus
delivers the frame 12 34 56 78 (hexadecimal) on every read. -/
def demoWorld : World :=
  { randSeq := fun k => 12345 + 999 * k,
    busData := fun _ i => [0x12, 0x34, 0x56, 0x78].getD i 0 }

/-- The state at program start: indicator off, nothing drawn, read or printed. -/
def startState : Machine := { led := false, randCalls := 0, busReads := 0, trace := [] }

/-! ## Arithmetic of the C integer model -/

theorem ofBits32_of_lt (n : Nat) (h : n < 2 ^ 31) : ofBits32 n = (n : Int) := by
  have h1 : n % 2 ^ 32 = n := Nat.mod_eq_of_lt (by omega)
  simp only [ofBits32, h1, if_pos h]

theorem toBits32_natCast (n : Nat) (h : n < 2 ^ 32) : toBits32 (n : Int) = n := by
  unfold toBits32
  have : ((n : Int) % 2 ^ 32) = (n : Int) := Int.emod_eq_of_lt (by omega) (by omega)
  rw [this]; simp

theorem wrap32_natCast (n : Nat) (h : n < 2 ^ 31) : wrap32 (n : Int) = (n : Int) := by
  unfold wrap32
  rw [toBits32_natCast n (by omega), ofBits32_of_lt n h]

theorem int_mod_natCast (r m : Nat) : int_mod (r : Int) (m : Int) = ((r % m : Nat) : Int) := by
  unfold int_mod
  simp [Int.tmod]

/-- No overflow in `base + rand() % 1000` for the two bases of the program. -/
theorem int_add_mod_1000 (base r : Nat) (h : base ≤ 26000) :
    int_add (base : Int) (int_mod (r : Int) 1000) = ((base + r % 1000 : Nat) : Int) := by
  have hm : int_mod (r : Int) 1000 = ((r % 1000 : Nat) : Int) := int_mod_natCast r 1000
  have hlt : r % 1000 < 1000 := Nat.mod_lt _ (by decide)
  unfold int_add
  rw [hm, ← Nat.cast_add, wrap32_natCast _ (by omega)]

/-- Big-endian composition of two bytes by shift and or. -/
theorem int_or_shl_bytes (a b : Nat) (ha : a < 256) (hb : b < 256) :
    int_or (int_shl (a : Int) 8) (b : Int) = ((256 * a + b : Nat) : Int) := by
  have hshl : int_shl (a : Int) 8 = ((2 ^ 8 * a : Nat) : Int) := by
    unfold int_shl
    rw [toBits32_natCast a (by omega), Nat.shiftLeft_eq, Nat.mul_comm,
      ofBits32_of_lt _ (by omega)]
  have hor : 2 ^ 8 * a ||| b = 2 ^ 8 * a + b := (Nat.mul_add_lt_is_or (by omega) a).symm
  unfold int_or
  rw [hshl, toBits32_natCast _ (by omega), toBits32_natCast b (by omega), hor,
    ofBits32_of_lt _ (by omega)]
  norm_num

/-- Decoding under the Arm ABI `char`, for arbitrary buffer contents. -/
theorem decodeFrame_unsigned (b0 b1 b2 b3 : Nat) :
    decodeFrame CharKind.unsignedChar [b0, b1, b2, b3]
      = { ir_val := ((256 * (b0 % 256) + b1 % 256 : Nat) : Int),
          red_val := ((256 * (b2 % 256) + b3 % 256 : Nat) : Int) } := by
  have h : ∀ n : Nat, n % 256 < 256 := fun n => Nat.mod_lt _ (by decide)
  simp only [decodeFrame, charToInt, List.getD_cons_zero, List.getD_cons_succ]
  rw [int_or_shl_bytes _ _ (h b0) (h b1), int_or_shl_bytes _ _ (h b2) (h b3)]

/-! ## Decimal text and the report line -/

theorem digitChar_isDigit (d : Nat) (h : d < 10) : (Nat.digitChar d).isDigit = true := by
  interval_cases d <;> rfl

theorem toDigitsCore_isDigit (fuel n : Nat) (acc : List Char)
    (hacc : ∀ c ∈ acc, c.isDigit = true) :
    ∀ c ∈ Nat.toDigitsCore 10 fuel n acc, c.isDigit = true := by
  induction fuel generalizing n acc with
  | zero => simpa [Nat.toDigitsCore] using hacc
  | succ f ih =>
    have hcons : ∀ c ∈ Nat.digitChar (n % 10) :: acc, c.isDigit = true := by
      intro c hc
      rcases List.mem_cons.mp hc with rfl | hc
      · exact digitChar_isDigit _ (Nat.mod_lt _ (by decide))
      · exact hacc c hc
    simp only [Nat.toDigitsCore]
    split
    · exact hcons
    · exact ih _ _ hcons

theorem natRepr_isDigit (n : Nat) : ∀ c ∈ (Nat.repr n).data, c.isDigit = true := by
  simp only [Nat.repr, List.asString, Nat.toDigits]
  exact toDigitsCore_isDigit _ _ _ (by simp)

/-- The decimal text of an `int` consists of digits and at most a minus sign. -/
theorem decimal_chars (v : Int) : ∀ c ∈ decimal v, c = '-' ∨ c.isDigit = true := by
  intro c hc
  cases v with
  | ofNat m =>
    right
    exact natRepr_isDigit m c hc
  | negSucc m =>
    have h : decimal (Int.negSucc m) = '-' :: (Nat.repr (m + 1)).data := rfl
    rw [h] at hc
    rcases List.mem_cons.mp hc with rfl | hc
    · left; rfl
    · right; exact natRepr_isDigit _ c hc

theorem decimal_no_lf (v : Int) : '\n' ∉ decimal v := by
  intro h
  rcases decimal_chars v _ h with h | h
  · exact absurd h (by decide)
  · exact absurd h (by decide)

theorem decimal_no_cr (v : Int) : '\r' ∉ decimal v := by
  intro h
  rcases decimal_chars v _ h with h | h
  · exact absurd h (by decide)
  · exact absurd h (by decide)

/-- Expansion of the report format of `GetData`. -/
theorem formatChars_report (i r : Int) :
    formatChars "IR Value: %d, RED Value: %d\r\n".data [PrintfArg.int i, PrintfArg.int r]
      = sampleLine ⟨i, r⟩ := by
  have h : formatChars "IR Value: %d, RED Value: %d\r\n".data [PrintfArg.int i, PrintfArg.int r]
      = "IR Value: ".data ++ (decimal i ++ (", RED Value: ".data ++ (decimal r ++ ['\r', '\n']))) :=
    rfl
  rw [h]
  simp only [sampleLine, List.append_assoc]

theorem sampleLine_count_lf (smp : Sample) : (sampleLine smp).count '\n' = 1 := by
  have h1 : (decimal smp.ir_val).count '\n' = 0 := List.count_eq_zero.mpr (decimal_no_lf _)
  have h2 : (decimal smp.red_val).count '\n' = 0 := List.count_eq_zero.mpr (decimal_no_lf _)
  have h3 : "IR Value: ".data.count '\n' = 0 := by decide
  have h4 : ", RED Value: ".data.count '\n' = 0 := by decide
  have h5 : ['\r', '\n'].count '\n' = 1 := by decide
  simp only [sampleLine, List.count_append, h1, h2, h3, h4, h5]

theorem sampleLine_count_cr (smp : Sample) : (sampleLine smp).count '\r' = 1 := by
  have h1 : (decimal smp.ir_val).count '\r' = 0 := List.count_eq_zero.mpr (decimal_no_cr _)
  have h2 : (decimal smp.red_val).count '\r' = 0 := List.count_eq_zero.mpr (decimal_no_cr _)
  have h3 : "IR Value: ".data.count '\r' = 0 := by decide
  have h4 : ", RED Value: ".data.count '\r' = 0 := by decide
  have h5 : ['\r', '\n'].count '\r' = 1 := by decide
  simp only [sampleLine, List.count_append, h1, h2, h3, h4, h5]

theorem linesOf_count_lf (smps : List Sample) : (linesOf smps).count '\n' = smps.length := by
  induction smps with
  | nil => rfl
  | cons smp rest ih =>
    simp only [linesOf, List.count_append, sampleLine_count_lf, ih, List.length_cons]
    omega

/-! ## Views distribute over concatenation -/

theorem stdoutOf_append (xs ys : List Event) :
    stdoutOf (xs ++ ys) = stdoutOf xs ++ stdoutOf ys := by
  induction xs with
  | nil => rfl
  | cons e es ih => cases e <;> simp [stdoutOf, ih]

theorem busOf_append (xs ys : List Event) : busOf (xs ++ ys) = busOf xs ++ busOf ys := by
  induction xs with
  | nil => rfl
  | cons e es ih => cases e <;> simp [busOf, ih]

theorem samplesOf_cons (e : Event) (es : List Event) :
    samplesOf (e :: es) = samplesOf [e] ++ samplesOf es := by
  by_cases h : ∃ f i r, e = Event.printf f [PrintfArg.int i, PrintfArg.int r]
  · obtain ⟨f, i, r, rfl⟩ := h
    simp [samplesOf]
  · have hne : ∀ (f : String) (i r : Int), e = Event.printf f [PrintfArg.int i, PrintfArg.int r]
        → False := fun f i r he => h ⟨f, i, r, he⟩
    rw [samplesOf.eq_3 _ _ hne, samplesOf.eq_3 _ _ hne]
    rfl

theorem samplesOf_append (xs ys : List Event) :
    samplesOf (xs ++ ys) = samplesOf xs ++ samplesOf ys := by
  induction xs with
  | nil => rfl
  | cons e es ih =>
    rw [List.cons_append, samplesOf_cons, ih, samplesOf_cons e es, List.append_assoc]

theorem regsAfter_append (regs : Nat → Nat) (xs ys : List Event) :
    regsAfter regs (xs ++ ys) = regsAfter (regsAfter regs xs) ys := by
  induction xs generalizing regs with
  | nil => rfl
  | cons e es ih =>
    cases e with
    | i2cWrite a d r =>
      match d with
      | [] => simp [regsAfter, ih]
      | [_] => simp [regsAfter, ih]
      | _ :: _ :: _ => simp [regsAfter, ih]
    | _ => simp [regsAfter, ih]

/-- On a target with signed plain `char` the same two lines sign-extend a
byte above 127: the buffer 00 80 FF FF (hexadecimal) would give -128 and -1,
where the Arm ABI `char` gives 128 and 65535. -/
theorem decodeFrame_char_signedness :
    decodeFrame CharKind.signedChar [0x00, 0x80, 0xFF, 0xFF] = ⟨-128, -1⟩
    ∧ decodeFrame CharKind.unsignedChar [0x00, 0x80, 0xFF, 0xFF] = ⟨128, 65535⟩ := by
  decide

/-! ## One acquisition -/

theorem GetData_acquire_synthetic (b : Build) (hb : b.SIMULATION_MODE = 1) (w : World)
    (s : Machine) :
    GetData_acquire b w s
      = (syntheticSample (w.randSeq s.randCalls) (w.randSeq (s.randCalls + 1)),
         { s with randCalls := s.randCalls + 2,
                  trace := s.trace ++ [Event.rand (w.randSeq s.randCalls),
                                       Event.rand (w.randSeq (s.randCalls + 1))] }) := by
  have h1 := int_add_mod_1000 25000 (w.randSeq s.randCalls) (by decide)
  have h2 := int_add_mod_1000 26000 (w.randSeq (s.randCalls + 1)) (by decide)
  simp only [Nat.cast_ofNat] at h1 h2
  simp only [GetData_acquire, hb, if_true, rand, syntheticSample, h1, h2,
    List.append_assoc, List.singleton_append]

theorem GetData_acquire_real (b : Build) (hb : b.SIMULATION_MODE ≠ 1) (w : World)
    (s : Machine) :
    GetData_acquire b w s
      = (decodeFrame b.plainChar
           [w.busData s.busReads 0 % 256, w.busData s.busReads 1 % 256,
            w.busData s.busReads 2 % 256, w.busData s.busReads 3 % 256],
         { s with busReads := s.busReads + 1,
                  trace := s.trace ++ [Event.i2cWrite 0xAE [5] true, Event.i2cRead 0xAF 4] }) := by
  have haddr : int_or 0xAE 0x01 = 0xAF := by decide
  have hreg : storeChar 0x05 = 5 := by decide
  have hrange : List.range 4 = [0, 1, 2, 3] := by decide
  simp only [GetData_acquire, hb, if_false, i2c_write, i2c_read, haddr, hreg, hrange,
    MAX30100_I2C_ADDR, List.map, List.take, List.append_assoc, List.singleton_append]

/-- The trace of `GetData`: the acquisition, then one `printf` of its sample. -/
theorem GetData_trace (b : Build) (w : World) (s : Machine) :
    (GetData b w s).trace
      = (GetData_acquire b w s).2.trace
        ++ [Event.printf "IR Value: %d, RED Value: %d\r\n"
              [PrintfArg.int (GetData_acquire b w s).1.ir_val,
               PrintfArg.int (GetData_acquire b w s).1.red_val]] := by
  rfl

theorem samplesOf_GetData (b : Build) (w : World) (s : Machine) :
    samplesOf (GetData b w s).trace = samplesOf s.trace ++ [(GetData_acquire b w s).1] := by
  rw [GetData_trace]
  by_cases hb : b.SIMULATION_MODE = 1
  · rw [GetData_acquire_synthetic b hb]
    simp [samplesOf_append, samplesOf]
  · rw [GetData_acquire_real b hb]
    simp [samplesOf_append, samplesOf]

theorem syntheticSample_range (r1 r2 : Nat) :
    25000 ≤ (syntheticSample r1 r2).ir_val ∧ (syntheticSample r1 r2).ir_val < 26000
    ∧ 26000 ≤ (syntheticSample r1 r2).red_val ∧ (syntheticSample r1 r2).red_val < 27000 := by
  have h1 : r1 % 1000 < 1000 := Nat.mod_lt _ (by decide)
  have h2 : r2 % 1000 < 1000 := Nat.mod_lt _ (by decide)
  simp only [syntheticSample]
  omega

/-- The acquisition prints nothing. -/
theorem stdoutOf_acquire (b : Build) (w : World) (s : Machine) :
    stdoutOf (GetData_acquire b w s).2.trace = stdoutOf s.trace := by
  by_cases hb : b.SIMULATION_MODE = 1
  · rw [GetData_acquire_synthetic b hb]
    simp [stdoutOf_append, stdoutOf]
  · rw [GetData_acquire_real b hb]
    simp [stdoutOf_append, stdoutOf]

/-- The acquisition does not touch the indicator. -/
theorem led_acquire (b : Build) (w : World) (s : Machine) :
    (GetData_acquire b w s).2.led = s.led := by
  by_cases hb : b.SIMULATION_MODE = 1
  · rw [GetData_acquire_synthetic b hb]
  · rw [GetData_acquire_real b hb]

theorem stdoutOf_report (ir red : Int) (s : Machine) :
    stdoutOf (GetData_report ir red s).trace = stdoutOf s.trace ++ sampleLine ⟨ir, red⟩ := by
  have h : stdoutOf [Event.printf "IR Value: %d, RED Value: %d\r\n"
      [PrintfArg.int ir, PrintfArg.int red]] = sampleLine ⟨ir, red⟩ := by
    rw [← formatChars_report]
    exact List.append_nil _
  rw [← h]
  exact stdoutOf_append _ _

theorem stdoutOf_GetData (b : Build) (w : World) (s : Machine) :
    stdoutOf (GetData b w s).trace = stdoutOf s.trace ++ sampleLine (GetData_acquire b w s).1 := by
  have h : GetData b w s
      = GetData_report (GetData_acquire b w s).1.ir_val (GetData_acquire b w s).1.red_val
          (GetData_acquire b w s).2 := rfl
  rw [h, stdoutOf_report, stdoutOf_acquire]

theorem handle_interrupt_led (b : Build) (w : World) (s : Machine) :
    (handle_interrupt b w s).led = !s.led := by
  have h : (handle_interrupt b w s).led
      = (GetData_acquire b w (led_write (!led_read s) s)).2.led := rfl
  rw [h, led_acquire]
  rfl

/-- One pass of the main loop in a simulation build. -/
theorem main_loop_body_synthetic (w : World) (s : Machine) :
    main_loop_body simulationBuild w s
      = { led := !s.led, randCalls := s.randCalls + 2, busReads := s.busReads,
          trace := s.trace ++
            [Event.sleepFor 1000, Event.ledWrite (!s.led),
             Event.rand (w.randSeq s.randCalls), Event.rand (w.randSeq (s.randCalls + 1)),
             Event.printf "IR Value: %d, RED Value: %d\r\n"
               [PrintfArg.int (syntheticSample (w.randSeq s.randCalls)
                  (w.randSeq (s.randCalls + 1))).ir_val,
                PrintfArg.int (syntheticSample (w.randSeq s.randCalls)
                  (w.randSeq (s.randCalls + 1))).red_val]] } := by
  have h : main_loop_body simulationBuild w s
      = GetData_report
          (GetData_acquire simulationBuild w (led_write (!led_read s) (sleep_for 1000 s))).1.ir_val
          (GetData_acquire simulationBuild w (led_write (!led_read s) (sleep_for 1000 s))).1.red_val
          (GetData_acquire simulationBuild w (led_write (!led_read s) (sleep_for 1000 s))).2 :=
    rfl
  rw [h, GetData_acquire_synthetic simulationBuild rfl]
  simp only [GetData_report, printf, led_write, led_read, sleep_for, List.append_assoc,
    List.singleton_append, List.cons_append, List.nil_append]

theorem syntheticRun_length (w : World) (k n : Nat) : (syntheticRun w k n).length = n := by
  induction n generalizing k with
  | zero => rfl
  | succ n ih => simp [syntheticRun, ih]

theorem syntheticRun_range (w : World) (k n : Nat) :
    ∀ smp ∈ syntheticRun w k n,
      25000 ≤ smp.ir_val ∧ smp.ir_val < 26000 ∧ 26000 ≤ smp.red_val ∧ smp.red_val < 27000 := by
  induction n generalizing k with
  | zero => intro smp h; simp [syntheticRun] at h
  | succ n ih =>
    intro smp h
    simp only [syntheticRun, List.mem_cons] at h
    rcases h with rfl | h
    · exact syntheticSample_range _ _
    · exact ih _ smp h

/-- State after `n` passes of the main loop in a simulation build. -/
theorem main_loop_synthetic (w : World) (n : Nat) (s : Machine) :
    samplesOf (main_loop simulationBuild w n s).trace
        = samplesOf s.trace ++ syntheticRun w s.randCalls n
    ∧ stdoutOf (main_loop simulationBuild w n s).trace
        = stdoutOf s.trace ++ linesOf (syntheticRun w s.randCalls n)
    ∧ (main_loop simulationBuild w n s).led = (if n % 2 = 0 then s.led else !s.led) := by
  induction n generalizing s with
  | zero => simp [main_loop, syntheticRun, linesOf]
  | succ n ih =>
    obtain ⟨h1, h2, h3⟩ := ih (main_loop_body simulationBuild w s)
    have hs : main_loop simulationBuild w (n + 1) s
        = main_loop simulationBuild w n (main_loop_body simulationBuild w s) := rfl
    rw [hs, h1, h2, h3, main_loop_body_synthetic]
    refine ⟨?_, ?_, ?_⟩
    · simp [samplesOf_append, samplesOf, syntheticRun]
    · simp only [stdoutOf_append, stdoutOf, syntheticRun, linesOf, List.append_nil,
        List.nil_append, List.append_assoc]
      rw [← formatChars_report]
    · rcases Nat.mod_two_eq_zero_or_one n with h | h
      · have h' : (n + 1) % 2 = 1 := by omega
        simp [h, h']
      · have h' : (n + 1) % 2 = 0 := by omega
        simp [h, h']

/-! ## The claims -/

/-- C1: in the simulation build, for every pseudo-random sequence and every
position in it, `GetData` reports exactly one sample; with `r1`, `r2` the two
values `rand()` returns, its infrared value is `25000 + r1 % 1000`, which
lies in [25000, 26000), and its red value is `26000 + r2 % 1000`, which lies
in [26000, 27000). -/
theorem C1_synthetic_ranges (w : World) (s : Machine) :
    ∃ ir red : Int,
      samplesOf (GetData simulationBuild w s).trace = samplesOf s.trace ++ [⟨ir, red⟩]
      ∧ ir = 25000 + (w.randSeq s.randCalls : Int) % 1000
      ∧ red = 26000 + (w.randSeq (s.randCalls + 1) : Int) % 1000
      ∧ 25000 ≤ ir ∧ ir < 26000 ∧ 26000 ≤ red ∧ red < 27000 := by
  have hr := syntheticSample_range (w.randSeq s.randCalls) (w.randSeq (s.randCalls + 1))
  refine ⟨(syntheticSample (w.randSeq s.randCalls) (w.randSeq (s.randCalls + 1))).ir_val,
    (syntheticSample (w.randSeq s.randCalls) (w.randSeq (s.randCalls + 1))).red_val,
    ?_, ?_, ?_, hr.1, hr.2.1, hr.2.2.1, hr.2.2.2⟩
  · rw [samplesOf_GetData, GetData_acquire_synthetic simulationBuild rfl]
  · simp only [syntheticSample]
    push_cast
    rfl
  · simp only [syntheticSample]
    push_cast
    rfl

/-- C2: in the hardware build, when the bus read leaves the bytes `b0 b1 b2 b3`
(each at most 255) in the buffer, the acquisition yields infrared
`256 * b0 + b1` and red `256 * b2 + b3`, and that is the sample `GetData`
reports; the frame 12 34 56 78 (hexadecimal) decodes to 4660 and 22136. -/
theorem C2_frame_decoding (w : World) (s : Machine) (b0 b1 b2 b3 : Nat)
    (h0 : b0 ≤ 255) (h1 : b1 ≤ 255) (h2 : b2 ≤ 255) (h3 : b3 ≤ 255)
    (hw : ∀ i, i < 4 → w.busData s.busReads i = [b0, b1, b2, b3].getD i 0) :
    (GetData_acquire hardwareBuild w s).1
        = ⟨((256 * b0 + b1 : Nat) : Int), ((256 * b2 + b3 : Nat) : Int)⟩
    ∧ samplesOf (GetData hardwareBuild w s).trace
        = samplesOf s.trace ++ [⟨((256 * b0 + b1 : Nat) : Int), ((256 * b2 + b3 : Nat) : Int)⟩]
    ∧ decodeFrame hardwareBuild.plainChar [0x12, 0x34, 0x56, 0x78] = ⟨4660, 22136⟩ := by
  have e0 : w.busData s.busReads 0 % 256 = b0 := by
    rw [hw 0 (by decide)]; exact Nat.mod_eq_of_lt (by simpa using Nat.lt_succ_of_le h0)
  have e1 : w.busData s.busReads 1 % 256 = b1 := by
    rw [hw 1 (by decide)]; exact Nat.mod_eq_of_lt (by simpa using Nat.lt_succ_of_le h1)
  have e2 : w.busData s.busReads 2 % 256 = b2 := by
    rw [hw 2 (by decide)]; exact Nat.mod_eq_of_lt (by simpa using Nat.lt_succ_of_le h2)
  have e3 : w.busData s.busReads 3 % 256 = b3 := by
    rw [hw 3 (by decide)]; exact Nat.mod_eq_of_lt (by simpa using Nat.lt_succ_of_le h3)
  have m0 : b0 % 256 = b0 := Nat.mod_eq_of_lt (by omega)
  have m1 : b1 % 256 = b1 := Nat.mod_eq_of_lt (by omega)
  have m2 : b2 % 256 = b2 := Nat.mod_eq_of_lt (by omega)
  have m3 : b3 % 256 = b3 := Nat.mod_eq_of_lt (by omega)
  have hacq : (GetData_acquire hardwareBuild w s).1
      = ⟨((256 * b0 + b1 : Nat) : Int), ((256 * b2 + b3 : Nat) : Int)⟩ := by
    rw [GetData_acquire_real hardwareBuild (by decide)]
    simp only [e0, e1, e2, e3, hardwareBuild, decodeFrame_unsigned, m0, m1, m2, m3]
  refine ⟨hacq, ?_, by decide⟩
  rw [samplesOf_GetData, hacq]

/-- Witness for C2: the frame 12 34 56 78 (hexadecimal) from the start state. -/
theorem C2_frame_decoding_witness :
    (0x12 ≤ 255 ∧ 0x34 ≤ 255 ∧ 0x56 ≤ 255 ∧ 0x78 ≤ 255)
    ∧ (GetData_acquire hardwareBuild demoWorld startState).1 = ⟨4660, 22136⟩ :=
  ⟨by decide,
   (C2_frame_decoding demoWorld startState 0x12 0x34 0x56 0x78 (by decide) (by decide)
      (by decide) (by decide) (fun _ _ => rfl)).1⟩

/-- C3: with the Arm ABI `char`, for every value of `SIMULATION_MODE`, every
world and every state, the one sample `GetData` reports has its infrared and
its red value in [0, 65535]. -/
theorem C3_sample_range (mode : Nat) (w : World) (s : Machine) :
    ∃ smp : Sample,
      samplesOf (GetData ⟨mode, CharKind.unsignedChar⟩ w s).trace = samplesOf s.trace ++ [smp]
      ∧ (GetData_acquire ⟨mode, CharKind.unsignedChar⟩ w s).1 = smp
      ∧ 0 ≤ smp.ir_val ∧ smp.ir_val ≤ 65535 ∧ 0 ≤ smp.red_val ∧ smp.red_val ≤ 65535 := by
  refine ⟨(GetData_acquire ⟨mode, CharKind.unsignedChar⟩ w s).1, samplesOf_GetData _ w s, rfl, ?_⟩
  by_cases hb : mode = 1
  · rw [GetData_acquire_synthetic ⟨mode, CharKind.unsignedChar⟩ hb]
    have hr := syntheticSample_range (w.randSeq s.randCalls) (w.randSeq (s.randCalls + 1))
    dsimp only
    omega
  · rw [GetData_acquire_real ⟨mode, CharKind.unsignedChar⟩ hb]
    have h : ∀ n : Nat, n % 256 < 256 := fun n => Nat.mod_lt _ (by decide)
    have q0 := h (w.busData s.busReads 0 % 256)
    have q1 := h (w.busData s.busReads 1 % 256)
    have q2 := h (w.busData s.busReads 2 % 256)
    have q3 := h (w.busData s.busReads 3 % 256)
    simp only [decodeFrame_unsigned]
    omega

/-- C4: `init_sensor` appends exactly three events to the trace, all of them
bus writes of a two-byte (register, value) payload to address 0xAE without a
repeated start, in the order (0x01, 0x10), (0x06, 0x03), (0x07, 0x47); it
reads nothing from the bus and leaves the rest of the state as it was. -/
theorem C4_init_sensor_writes (s : Machine) :
    (init_sensor s).trace
        = s.trace ++ [Event.i2cWrite 0xAE [0x01, 0x10] false,
                      Event.i2cWrite 0xAE [0x06, 0x03] false,
                      Event.i2cWrite 0xAE [0x07, 0x47] false]
    ∧ busOf (init_sensor s).trace
        = busOf s.trace ++ [Event.i2cWrite 0xAE [0x01, 0x10] false,
                            Event.i2cWrite 0xAE [0x06, 0x03] false,
                            Event.i2cWrite 0xAE [0x07, 0x47] false]
    ∧ (init_sensor s).busReads = s.busReads
    ∧ (init_sensor s).randCalls = s.randCalls
    ∧ (init_sensor s).led = s.led := by
  have ht : (init_sensor s).trace
      = s.trace ++ [Event.i2cWrite 0xAE [0x01, 0x10] false,
                    Event.i2cWrite 0xAE [0x06, 0x03] false,
                    Event.i2cWrite 0xAE [0x07, 0x47] false] := by
    have c1 : storeChar 0x01 = 0x01 := by decide
    have c2 : storeChar 0x10 = 0x10 := by decide
    have c3 : storeChar 0x06 = 0x06 := by decide
    have c4 : storeChar 0x03 = 0x03 := by decide
    have c5 : storeChar 0x07 = 0x07 := by decide
    have c6 : storeChar 0x47 = 0x47 := by decide
    simp only [init_sensor, i2c_write, MAX30100_I2C_ADDR, c1, c2, c3, c4, c5, c6, List.set,
      List.take, List.append_assoc, List.singleton_append, List.cons_append, List.nil_append]
  refine ⟨ht, ?_, rfl, rfl, rfl⟩
  rw [ht, busOf_append]
  rfl

/-- C5: one call of `handle_interrupt`, in every build, world and state,
appends to the output stream exactly the line of one sample (a text with a
single line feed, at its end), adds exactly that one sample to the reported
samples, and leaves the indicator at the negation of its previous value. -/
theorem C5_trigger_event (b : Build) (w : World) (s : Machine) :
    ∃ (smp : Sample) (body : List Char),
      stdoutOf (handle_interrupt b w s).trace = stdoutOf s.trace ++ sampleLine smp
      ∧ sampleLine smp = body ++ ['\r', '\n']
      ∧ body.count '\n' = 0
      ∧ samplesOf (handle_interrupt b w s).trace = samplesOf s.trace ++ [smp]
      ∧ (handle_interrupt b w s).led = !s.led := by
  have hh : handle_interrupt b w s = GetData b w (led_write (!led_read s) s) := rfl
  refine ⟨(GetData_acquire b w (led_write (!led_read s) s)).1,
    "IR Value: ".data ++ decimal (GetData_acquire b w (led_write (!led_read s) s)).1.ir_val
      ++ ", RED Value: ".data
      ++ decimal (GetData_acquire b w (led_write (!led_read s) s)).1.red_val,
    ?_, ?_, ?_, ?_, handle_interrupt_led b w s⟩
  · rw [hh, stdoutOf_GetData]
    simp [led_write, stdoutOf_append, stdoutOf]
  · rfl
  · have h1 := List.count_eq_zero.mpr
      (decimal_no_lf (GetData_acquire b w (led_write (!led_read s) s)).1.ir_val)
    have h2 := List.count_eq_zero.mpr
      (decimal_no_lf (GetData_acquire b w (led_write (!led_read s) s)).1.red_val)
    have h3 : "IR Value: ".data.count '\n' = 0 := by decide
    have h4 : ", RED Value: ".data.count '\n' = 0 := by decide
    simp only [List.count_append, h1, h2, h3, h4]
  · rw [hh, samplesOf_GetData]
    simp [led_write, samplesOf_append, samplesOf]

/-- C6: in the simulation build, `N` passes of the main loop from any state
and with any pseudo-random sequence report exactly `N` samples and print
exactly their `N` lines, every sample has infrared in [25000, 26000) and red
in [26000, 27000), and the indicator ends at its initial value when `N` is
even and at the opposite value when `N` is odd. -/
theorem C6_synthetic_run (w : World) (s : Machine) (N : Nat) :
    samplesOf (main_loop simulationBuild w N s).trace
        = samplesOf s.trace ++ syntheticRun w s.randCalls N
    ∧ (syntheticRun w s.randCalls N).length = N
    ∧ stdoutOf (main_loop simulationBuild w N s).trace
        = stdoutOf s.trace ++ linesOf (syntheticRun w s.randCalls N)
    ∧ (linesOf (syntheticRun w s.randCalls N)).count '\n' = N
    ∧ (∀ smp ∈ syntheticRun w s.randCalls N,
        25000 ≤ smp.ir_val ∧ smp.ir_val < 26000 ∧ 26000 ≤ smp.red_val ∧ smp.red_val < 27000)
    ∧ (main_loop simulationBuild w N s).led = (if N % 2 = 0 then s.led else !s.led) := by
  obtain ⟨h1, h2, h3⟩ := main_loop_synthetic w N s
  refine ⟨h1, syntheticRun_length w _ N, h2, ?_, syntheticRun_range w _ N, h3⟩
  rw [linesOf_count_lf, syntheticRun_length]

/-- Witness for C6: three passes from the start state give three samples,
three lines, and the indicator switched from off to on. -/
theorem C6_synthetic_run_witness :
    samplesOf (main_loop simulationBuild demoWorld 3 startState).trace
        = [⟨25345, 26344⟩, ⟨25343, 26342⟩, ⟨25341, 26340⟩]
    ∧ (stdoutOf (main_loop simulationBuild demoWorld 3 startState).trace).count '\n' = 3
    ∧ (main_loop simulationBuild demoWorld 3 startState).led = !startState.led := by
  have h := C6_synthetic_run demoWorld startState 3
  refine ⟨?_, ?_, ?_⟩
  · rw [h.1]; decide
  · rw [h.2.2.1, List.count_append, h.2.2.2.1]; rfl
  · rw [h.2.2.2.2.2]; rfl

/-- C7: the text `GetData` writes for a sample `(ir, red)` is the label
"IR Value: ", the decimal text of `ir`, the label ", RED Value: ", the decimal
text of `red`, and carriage return plus line feed; the line contains exactly
one line feed and one carriage return (those at its end). -/
theorem C7_report_format (ir red : Int) (s : Machine) (b : Build) (w : World) :
    stdoutOf (GetData_report ir red s).trace
        = stdoutOf s.trace
          ++ ("IR Value: ".data ++ (toString ir).data ++ ", RED Value: ".data
              ++ (toString red).data ++ "\r\n".data)
    ∧ ("IR Value: ".data ++ (toString ir).data ++ ", RED Value: ".data
        ++ (toString red).data ++ "\r\n".data).count '\n' = 1
    ∧ ("IR Value: ".data ++ (toString ir).data ++ ", RED Value: ".data
        ++ (toString red).data ++ "\r\n".data).count '\r' = 1
    ∧ stdoutOf (GetData b w s).trace
        = stdoutOf s.trace
          ++ ("IR Value: ".data ++ (toString (GetData_acquire b w s).1.ir_val).data
              ++ ", RED Value: ".data ++ (toString (GetData_acquire b w s).1.red_val).data
              ++ "\r\n".data) :=
  ⟨stdoutOf_report ir red s, sampleLine_count_lf ⟨ir, red⟩, sampleLine_count_cr ⟨ir, red⟩,
   stdoutOf_GetData b w s⟩

/-- C8: the events one call of `handle_interrupt` appends are, in order: the
indicator write; the acquisition events (two `rand()` calls when
`SIMULATION_MODE` is 1, otherwise the one-byte register-pointer write and
the 4-byte read); and last the single `printf` of the acquired sample. -/
theorem C8_effect_order (b : Build) (w : World) (s : Machine) :
    (handle_interrupt b w s).trace
      = s.trace
        ++ [Event.ledWrite (!s.led)]
        ++ (if b.SIMULATION_MODE = 1 then
              [Event.rand (w.randSeq s.randCalls), Event.rand (w.randSeq (s.randCalls + 1))]
            else [Event.i2cWrite 0xAE [0x05] true, Event.i2cRead 0xAF 4])
        ++ [Event.printf "IR Value: %d, RED Value: %d\r\n"
              [PrintfArg.int (GetData_acquire b w (led_write (!s.led) s)).1.ir_val,
               PrintfArg.int (GetData_acquire b w (led_write (!s.led) s)).1.red_val]] := by
  have hh : handle_interrupt b w s = GetData b w (led_write (!s.led) s) := rfl
  rw [hh, GetData_trace]
  by_cases hb : b.SIMULATION_MODE = 1
  · rw [GetData_acquire_synthetic b hb]
    simp [hb, led_write]
  · rw [GetData_acquire_real b hb]
    simp [hb, led_write]

/-- C9: in the hardware build (for either signedness of `char`), the bus
traffic of one `GetData` is exactly a write of the single byte 0x05 to
address 0xAE with a repeated start, then a read of 4 bytes from address 0xAF,
which is 0xAE with the low bit set; no (register, value) write occurs, so the
register file of the peripheral is the same after the call as before. -/
theorem C9_acquisition_bus (k : CharKind) (w : World) (s : Machine) (regs : Nat → Nat) :
    busOf (GetData ⟨0, k⟩ w s).trace
        = busOf s.trace ++ [Event.i2cWrite 0xAE [0x05] true, Event.i2cRead 0xAF 4]
    ∧ int_or MAX30100_I2C_ADDR 0x01 = 0xAF
    ∧ regsAfter regs (GetData ⟨0, k⟩ w s).trace = regsAfter regs s.trace := by
  have ht : (GetData ⟨0, k⟩ w s).trace
      = s.trace ++ ([Event.i2cWrite 0xAE [0x05] true, Event.i2cRead 0xAF 4]
          ++ [Event.printf "IR Value: %d, RED Value: %d\r\n"
                [PrintfArg.int (GetData_acquire ⟨0, k⟩ w s).1.ir_val,
                 PrintfArg.int (GetData_acquire ⟨0, k⟩ w s).1.red_val]]) := by
    have hne : (⟨0, k⟩ : Build).SIMULATION_MODE ≠ 1 := Nat.zero_ne_one
    rw [GetData_trace, GetData_acquire_real ⟨0, k⟩ hne]
    simp
  refine ⟨?_, by decide, ?_⟩
  · rw [ht, busOf_append]; rfl
  · rw [ht, regsAfter_append]; rfl

/-- C10: with the Arm ABI `char`, decoding is injective on frames of four
bytes (each at most 255), and every pair `(ir, red)` with both values at most
65535 is the decoding of the frame
`[ir / 256, ir % 256, red / 256, red % 256]`, whose bytes are at most 255. -/
theorem C10_decode_lossless :
    (∀ b0 b1 b2 b3 c0 c1 c2 c3 : Nat,
      b0 ≤ 255 → b1 ≤ 255 → b2 ≤ 255 → b3 ≤ 255 →
      c0 ≤ 255 → c1 ≤ 255 → c2 ≤ 255 → c3 ≤ 255 →
      decodeFrame CharKind.unsignedChar [b0, b1, b2, b3]
        = decodeFrame CharKind.unsignedChar [c0, c1, c2, c3] →
      [b0, b1, b2, b3] = [c0, c1, c2, c3])
    ∧ (∀ ir red : Nat, ir ≤ 65535 → red ≤ 65535 →
        (ir / 256 ≤ 255 ∧ ir % 256 ≤ 255 ∧ red / 256 ≤ 255 ∧ red % 256 ≤ 255)
        ∧ decodeFrame CharKind.unsignedChar [ir / 256, ir % 256, red / 256, red % 256]
            = ⟨(ir : Int), (red : Int)⟩) := by
  constructor
  · intro b0 b1 b2 b3 c0 c1 c2 c3 hb0 hb1 hb2 hb3 hc0 hc1 hc2 hc3 h
    rw [decodeFrame_unsigned, decodeFrame_unsigned] at h
    simp only [Sample.mk.injEq, Nat.cast_inj] at h
    obtain ⟨hi, hr⟩ := h
    have e0 : b0 = c0 := by omega
    have e1 : b1 = c1 := by omega
    have e2 : b2 = c2 := by omega
    have e3 : b3 = c3 := by omega
    rw [e0, e1, e2, e3]
  · intro ir red hi hr
    refine ⟨by omega, ?_⟩
    rw [decodeFrame_unsigned]
    have e1 : 256 * (ir / 256 % 256) + ir % 256 % 256 = ir := by omega
    have e2 : 256 * (red / 256 % 256) + red % 256 % 256 = red := by omega
    rw [e1, e2]

/-- Witness for C10: two equal frames, and the pair (4660, 22136). -/
theorem C10_decode_lossless_witness :
    [0x12, 0x34, 0x56, 0x78] = [0x12, 0x34, 0x56, 0x78]
    ∧ decodeFrame CharKind.unsignedChar [4660 / 256, 4660 % 256, 22136 / 256, 22136 % 256]
        = ⟨4660, 22136⟩ :=
  ⟨C10_decode_lossless.1 0x12 0x34 0x56 0x78 0x12 0x34 0x56 0x78 (by decide) (by decide)
      (by decide) (by decide) (by decide) (by decide) (by decide) (by decide) rfl,
   (C10_decode_lossless.2 4660 22136 (by decide) (by decide)).2⟩

end PulseOximeter
